import Mathlib

/-!
Verification of the crawl-and-score pipeline (crawler.py, scorer.py).

The development is a shallow embedding: the Python functions of the
repository are translated into executable Lean definitions, with the
external collaborators (the HTTP fetcher together with BeautifulSoup text
and link extraction, and the language-model `generate_content` call)
modelled as explicit function parameters.  `urllib.parse.urlsplit` /
`urljoin` and `json.loads` are modelled directly, following the CPython
implementations (the rarely used `params` component of `urlparse` is not
modelled; no URL in this development carries a `;` path parameter).
-/

/-! ### Model of urllib.parse: urlsplit, netloc, urlunsplit, urljoin -/

/-- Characters admissible in a URL scheme, after `urllib.parse.scheme_chars`. -/
def schemeChar (c : Char) : Bool :=
  c.isAlpha || c.isDigit || c = '+' || c = '-' || c = '.'

/-- Split a leading `scheme:` off a URL, after the scheme test in
`urllib.parse.urlsplit`: there must be a `:`, the text before it must be
nonempty, start with a letter and consist of scheme characters; the scheme
is lowercased.  Returns `(scheme, rest)`. -/
def splitSchemePart (cs : List Char) : List Char × List Char :=
  let pre := cs.takeWhile (fun c => c ≠ ':')
  if pre.length < cs.length ∧ 0 < pre.length ∧
      (pre.headD ' ').isAlpha ∧ pre.all schemeChar then
    (pre.map Char.toLower, cs.drop (pre.length + 1))
  else
    ([], cs)

/-- The five components returned by the model of `urllib.parse.urlsplit`. -/
structure SplitUrl where
  scheme : String
  netloc : String
  path : String
  query : String
  fragment : String
deriving Repr, DecidableEq

/-- Split the text before the first occurrence of `sep` from the text after
it; the second component is `[]` when `sep` does not occur (mirroring
Python's `str.split(sep, 1)` with a missing separator). -/
def splitFirst (sep : Char) (cs : List Char) : List Char × List Char :=
  (cs.takeWhile (fun c => c ≠ sep), (cs.dropWhile (fun c => c ≠ sep)).drop 1)

/-- Whether `sep` occurs in `cs` (Python `sep in s`). -/
def containsChar (sep : Char) (cs : List Char) : Bool :=
  cs.any (fun c => c = sep)

/-- Model of `urllib.parse.urlsplit`: split a URL into scheme, network
location, path, query and fragment.  The network location is present only
after a leading `//` (possibly following `scheme:`) and extends to the next
`/`, `?` or `#`. -/
def urlsplit (s : String) : SplitUrl :=
  let cs := s.toList
  let (scheme, rest) := splitSchemePart cs
  let (netl, rest2) :=
    match rest with
    | '/' :: '/' :: tail =>
        (tail.takeWhile (fun c => c ≠ '/' ∧ c ≠ '?' ∧ c ≠ '#'),
         tail.dropWhile (fun c => c ≠ '/' ∧ c ≠ '?' ∧ c ≠ '#'))
    | _ => ([], rest)
  let (rest3, fragment) :=
    if containsChar '#' rest2 then splitFirst '#' rest2 else (rest2, [])
  let (path, query) :=
    if containsChar '?' rest3 then splitFirst '?' rest3 else (rest3, [])
  ⟨String.mk scheme, String.mk netl, String.mk path,
   String.mk query, String.mk fragment⟩

/-- The network location of a URL, `urlparse(url).netloc` in the source. -/
def netloc (s : String) : String :=
  (urlsplit s).netloc

/-- Python `url[:1] == '/'` on a string. -/
def headSlash (s : String) : Bool :=
  match s.toList with
  | '/' :: _ => true
  | _ => false

/-- Python `url[:2] == '//'` on a string. -/
def headDoubleSlash (s : String) : Bool :=
  match s.toList with
  | '/' :: '/' :: _ => true
  | _ => false

/-- Python `'/'.join(parts)`. -/
def joinSlash : List String → String
  | [] => ""
  | [a] => a
  | a :: rest => a ++ "/" ++ joinSlash rest

/-- Model of `urllib.parse.urlunsplit`. -/
def urlunsplit (u : SplitUrl) : String :=
  let p := u.path
  let p1 :=
    if u.netloc ≠ "" ∨ headDoubleSlash p then
      "//" ++ u.netloc ++ (if p ≠ "" ∧ ¬ headSlash p then "/" ++ p else p)
    else p
  let p2 := if u.scheme ≠ "" then u.scheme ++ ":" ++ p1 else p1
  let p3 := if u.query ≠ "" then p2 ++ "?" ++ u.query else p2
  if u.fragment ≠ "" then p3 ++ "#" ++ u.fragment else p3

/-- Schemes that allow relative resolution, `urllib.parse.uses_relative`. -/
def usesRelative : List String :=
  ["", "ftp", "http", "gopher", "nntp", "imap", "wais", "file", "https",
   "shttp", "mms", "prospero", "rtsp", "rtspu", "sftp", "svn", "svn+ssh",
   "ws", "wss"]

/-- Schemes that use a network location, `urllib.parse.uses_netloc`. -/
def usesNetloc : List String :=
  ["", "ftp", "http", "gopher", "nntp", "telnet", "imap", "wais", "file",
   "mms", "https", "shttp", "snews", "prospero", "rtsp", "rtspu", "rsync",
   "svn", "svn+ssh", "sftp", "nfs", "git", "git+ssh", "ws", "wss"]

/-- Python `str.split(sep)` for a one-character separator (never returns an
empty list). -/
def pySplitCharAux (sep : Char) : List Char → List Char → List (List Char)
  | [], acc => [acc.reverse]
  | c :: rest, acc =>
      if c = sep then acc.reverse :: pySplitCharAux sep rest []
      else pySplitCharAux sep rest (c :: acc)

/-- Python `path.split('/')` as a list of strings. -/
def pySplitSlash (s : String) : List String :=
  (pySplitCharAux '/' s.toList []).map String.mk

/-- The in-place update `segments[1:-1] = filter(None, segments[1:-1])` of
CPython's `urljoin`: keep the first and last elements, drop empty interior
segments. -/
def filterInterior : List String → List String
  | [] => []
  | [a] => [a]
  | a :: rest => a :: ((rest.dropLast.filter (fun s => s ≠ "")) ++ [rest.getLastD ""])

/-- The dot-segment resolution loop of CPython's `urljoin`: `..` pops the
last resolved segment (silently on empty), `.` is dropped, anything else is
appended. -/
def resolveSegments (segments : List String) : List String :=
  segments.foldl
    (fun acc seg =>
      if seg = ".." then acc.dropLast
      else if seg = "." then acc
      else acc ++ [seg]) []

/-- Model of `urllib.parse.urljoin(base, url)`, following the CPython
implementation (without the `params` component). -/
def urljoin (base url : String) : String :=
  if base = "" then url
  else if url = "" then base
  else
    let b := urlsplit base
    let u := urlsplit url
    let scheme := if u.scheme = "" then b.scheme else u.scheme
    if scheme ≠ b.scheme ∨ ¬ usesRelative.contains scheme then url
    else if usesNetloc.contains scheme ∧ u.netloc ≠ "" then
      urlunsplit ⟨scheme, u.netloc, u.path, u.query, u.fragment⟩
    else
      let nl := if usesNetloc.contains scheme then b.netloc else u.netloc
      if u.path = "" then
        urlunsplit ⟨scheme, nl, b.path,
          (if u.query = "" then b.query else u.query), u.fragment⟩
      else
        let segments :=
          if headSlash u.path then pySplitSlash u.path
          else
            let bparts := pySplitSlash b.path
            let bparts := if bparts.getLastD "" ≠ "" then bparts.dropLast else bparts
            filterInterior (bparts ++ pySplitSlash u.path)
        let resolved := resolveSegments segments
        let resolved :=
          if segments.getLastD "" = ".." ∨ segments.getLastD "" = "." then
            resolved ++ [""]
          else resolved
        let path := joinSlash resolved
        let path := if path = "" then "/" else path
        urlunsplit ⟨scheme, nl, path, u.query, u.fragment⟩

/-! ### Crawler (crawler.py)

The HTTP fetch collaborator (`requests.get` plus the BeautifulSoup steps
`clean_text` and anchor-`href` collection) is modelled as a function from a
URL to an optional `FetchResult`: `none` models a raised exception or
non-2xx status, `some r` a successful fetch whose cleaned page text is
`r.text` and whose anchor `href` attributes, in document order, are
`r.hrefs`. -/

/-- Outcome of a successful fetch of one page: the cleaned text and the raw
`href` attributes found in the page, in document order. -/
structure FetchResult where
  text : String
  hrefs : List String
deriving Repr, DecidableEq

/-- One page block written to `website_context.txt`. -/
structure Block where
  url : String
  text : String
deriving Repr, DecidableEq

/-- The crawler state.  `visited`, `frontier` (`pages_to_visit`) and
`crawled` (`pages_crawled`) are the fields of `WebsiteCrawler` plus the
loop counter; `corpus` is the content of `website_context.txt` (opened in
write mode, hence starting empty each run).  `failed` and `blocks` are
ghost instrumentation: the number of fetch failures absorbed so far, and
the corpus blocks in write order. -/
structure CrawlState where
  visited : List String
  frontier : List String
  crawled : Nat
  failed : Nat
  blocks : List Block
  corpus : String
deriving Repr, DecidableEq

/-- `WebsiteCrawler.is_internal_link`: a URL is internal iff its network
location equals the crawler's domain, or it has no network location. -/
def is_internal_link (domain url : String) : Bool :=
  netloc url = domain || netloc url = ""

/-- `WebsiteCrawler.extract_links`: resolve each `href` against the current
page URL and keep it when it is internal and in neither the visited set nor
the frontier.  The accumulating list itself is not consulted, exactly as in
the source. -/
def extract_links (visited frontier : List String) (hrefs : List String)
    (current_url domain : String) : List String :=
  hrefs.foldl
    (fun links href =>
      let full_url := urljoin current_url href
      if is_internal_link domain full_url ∧ full_url ∉ visited ∧
          full_url ∉ frontier then
        links ++ [full_url]
      else links) []

/-- The rendering of one corpus block, matching the three `f.write` calls. -/
def renderBlock (b : Block) : String :=
  "[PAGE: " ++ b.url ++ "]\n" ++ b.text ++ "\n\n"

/-- The corpus file content produced by a list of blocks. -/
def renderCorpus (blocks : List Block) : String :=
  blocks.foldl (fun acc b => acc ++ renderBlock b) ""

/-- The body of one iteration of the crawl loop, after the pop of
`current` from the frontier (`rest` is the remaining frontier): skip if
already visited; on a successful fetch write the block, enqueue the new
links, mark visited and count the page; on a failed fetch mark visited and
continue. -/
def crawlStep (fetch : String → Option FetchResult) (domain : String)
    (s : CrawlState) (current : String) (rest : List String) : CrawlState :=
  if current ∈ s.visited then
    { s with frontier := rest }
  else
    match fetch current with
    | some page =>
        { visited := s.visited ++ [current]
          frontier := rest ++ extract_links s.visited rest page.hrefs current domain
          crawled := s.crawled + 1
          failed := s.failed
          blocks := s.blocks ++ [⟨current, page.text⟩]
          corpus := s.corpus ++ renderBlock ⟨current, page.text⟩ }
    | none =>
        { s with
          visited := s.visited ++ [current]
          frontier := rest
          failed := s.failed + 1 }

/-- In each loop iteration, either the page counter strictly increases (to
at most one past its old value), or it is unchanged and the frontier
shrinks to `rest`.  Stated as a definition because the loop definitions
below consume it in their termination arguments. -/
def crawlStep_progress (fetch : String → Option FetchResult)
    (domain : String) (s : CrawlState) (current : String)
    (rest : List String) :
    (crawlStep fetch domain s current rest).crawled = s.crawled + 1 ∨
      ((crawlStep fetch domain s current rest).crawled = s.crawled ∧
        (crawlStep fetch domain s current rest).frontier = rest) := by
  unfold crawlStep
  split
  · exact Or.inr ⟨rfl, rfl⟩
  · cases fetch current with
    | some page => exact Or.inl rfl
    | none => exact Or.inr ⟨rfl, rfl⟩

/-- `WebsiteCrawler.crawl`: the loop `while self.pages_to_visit and
pages_crawled < self.max_pages`, returning the final state. -/
def crawlEnd (fetch : String → Option FetchResult) (domain : String)
    (max_pages : Nat) (s : CrawlState) : CrawlState :=
  match h : s.frontier with
  | [] => s
  | current :: rest =>
      if hc : s.crawled < max_pages then
        crawlEnd fetch domain max_pages (crawlStep fetch domain s current rest)
      else s
termination_by (max_pages - s.crawled, s.frontier.length)
decreasing_by
  rcases crawlStep_progress fetch domain s current rest with h1 | ⟨h1, h2⟩
  · exact Prod.Lex.left _ _ (by omega)
  · rw [h1, h2]
    exact Prod.Lex.right _ (by rw [h]; simp)

/-- The list of crawler states reached after each loop iteration, in
order (the same loop as `crawlEnd`, instrumented with its trace). -/
def crawlTrace (fetch : String → Option FetchResult) (domain : String)
    (max_pages : Nat) (s : CrawlState) : List CrawlState :=
  match h : s.frontier with
  | [] => []
  | current :: rest =>
      if hc : s.crawled < max_pages then
        crawlStep fetch domain s current rest ::
          crawlTrace fetch domain max_pages (crawlStep fetch domain s current rest)
      else []
termination_by (max_pages - s.crawled, s.frontier.length)
decreasing_by
  rcases crawlStep_progress fetch domain s current rest with h1 | ⟨h1, h2⟩
  · exact Prod.Lex.left _ _ (by omega)
  · rw [h1, h2]
    exact Prod.Lex.right _ (by rw [h]; simp)

/-- The crawler state at the start of a run: nothing visited, the frontier
seeded with the base URL, and the corpus file truncated by the
write-mode `open`. -/
def initState (base_url : String) : CrawlState :=
  ⟨[], [base_url], 0, 0, [], ""⟩

/-- A whole crawl run from a seed: domain taken from the seed as in
`WebsiteCrawler.__init__`, and the loop run from the initial state. -/
def crawl (fetch : String → Option FetchResult) (base_url : String)
    (max_pages : Nat) : CrawlState :=
  crawlEnd fetch (netloc base_url) max_pages (initState base_url)

/-! ### Model of Python string primitives used by the scorer -/

/-- Python whitespace for `str.strip()`. -/
def pySpace (c : Char) : Bool :=
  c = ' ' || c = '\t' || c = '\n' || c = '\r' || c = '\x0b' || c = '\x0c'

/-- Python `str.strip()`. -/
def pyStrip (s : String) : String :=
  String.mk (((s.toList.dropWhile pySpace).reverse.dropWhile pySpace).reverse)

/-- Python `str.find(c)`: index of the first occurrence, `-1` if absent. -/
def pyFindChar (c : Char) : List Char → Int
  | [] => -1
  | d :: rest =>
      if d = c then 0
      else
        let r := pyFindChar c rest
        if r = -1 then -1 else r + 1

/-- Python `str.rfind(c)`: index of the last occurrence, `-1` if absent. -/
def pyRfindChar (c : Char) (cs : List Char) : Int :=
  let r := pyFindChar c cs.reverse
  if r = -1 then -1 else (cs.length : Int) - 1 - r

/-- Python `s[a:b]` for non-negative bounds (the only case reached in the
scorer: both indices are guarded non-negative before slicing). -/
def pySlice (cs : List Char) (a b : Int) : List Char :=
  (cs.take b.toNat).drop a.toNat

/-! ### Model of json.loads

A JSON value as produced by `json.loads`; numbers are kept as a decimal
mantissa/exponent pair.  The parser below follows the grammar accepted by
CPython's `json` module in its strict default mode (`\uXXXX` escapes are
mapped code point by code point). -/

/-- A parsed JSON value. -/
inductive JsonValue where
  | null : JsonValue
  | bool (b : Bool) : JsonValue
  | num (mant : Int) (exp : Int) : JsonValue
  | str (s : String) : JsonValue
  | arr (elems : List JsonValue) : JsonValue
  | obj (members : List (String × JsonValue)) : JsonValue
deriving Repr

/-- JSON inter-token whitespace. -/
def jsonWsChar (c : Char) : Bool :=
  c = ' ' || c = '\t' || c = '\n' || c = '\r'

/-- Skip JSON whitespace. -/
def skipWs (cs : List Char) : List Char :=
  cs.dropWhile jsonWsChar

/-- Value of a hexadecimal digit. -/
def hexVal (c : Char) : Option Nat :=
  if c.isDigit then some (c.toNat - '0'.toNat)
  else if 'a' ≤ c ∧ c ≤ 'f' then some (c.toNat - 'a'.toNat + 10)
  else if 'A' ≤ c ∧ c ≤ 'F' then some (c.toNat - 'A'.toNat + 10)
  else none

/-- Single-character JSON string escapes. -/
def escChar (c : Char) : Option Char :=
  if c = '"' then some '"'
  else if c = '\\' then some '\\'
  else if c = '/' then some '/'
  else if c = 'b' then some '\x08'
  else if c = 'f' then some '\x0c'
  else if c = 'n' then some '\n'
  else if c = 'r' then some '\r'
  else if c = 't' then some '\t'
  else none

/-- Parse the body of a JSON string after the opening quote; raw control
characters are rejected as in strict mode. -/
def parseStringBody : List Char → List Char → Option (String × List Char)
  | [], _ => none
  | '"' :: rest, acc => some (String.mk acc.reverse, rest)
  | '\\' :: rest, acc =>
      match rest with
      | [] => none
      | e :: rest2 =>
          match escChar e with
          | some c => parseStringBody rest2 (c :: acc)
          | none =>
              if e = 'u' then
                match rest2 with
                | h1 :: h2 :: h3 :: h4 :: rest3 =>
                    match hexVal h1, hexVal h2, hexVal h3, hexVal h4 with
                    | some a, some b, some c, some d =>
                        parseStringBody rest3
                          (Char.ofNat (((a * 16 + b) * 16 + c) * 16 + d) :: acc)
                    | _, _, _, _ => none
                | _ => none
              else none
  | c :: rest, acc =>
      if c.toNat < 32 then none else parseStringBody rest (c :: acc)

/-- Numeric value of a digit run. -/
def digitsToNat (ds : List Char) : Nat :=
  ds.foldl (fun n c => 10 * n + (c.toNat - '0'.toNat)) 0

/-- Parse a JSON number (the regular expression
`-?(0|[1-9][0-9]*)(\.[0-9]+)?([eE][-+]?[0-9]+)?` of CPython's json). -/
def parseNumber (cs : List Char) : Option (JsonValue × List Char) :=
  let (neg, cs1) :=
    match cs with
    | '-' :: rest => (true, rest)
    | _ => (false, cs)
  let intDigits :=
    match cs1 with
    | '0' :: _ => ['0']
    | _ => cs1.takeWhile Char.isDigit
  if intDigits = [] then none
  else
    let cs2 := cs1.drop intDigits.length
    let (fracDigits, cs3) :=
      match cs2 with
      | '.' :: rest =>
          let ds := rest.takeWhile Char.isDigit
          if ds = [] then ([], cs2) else (ds, rest.drop ds.length)
      | _ => ([], cs2)
    let (expVal, cs4) :=
      match cs3 with
      | e :: rest =>
          if e = 'e' ∨ e = 'E' then
            let (esign, rest2) :=
              match rest with
              | '-' :: r => ((-1 : Int), r)
              | '+' :: r => ((1 : Int), r)
              | _ => ((1 : Int), rest)
            let ds := rest2.takeWhile Char.isDigit
            if ds = [] then ((0 : Int), cs3)
            else (esign * (digitsToNat ds : Int), rest2.drop ds.length)
          else ((0 : Int), cs3)
      | _ => ((0 : Int), cs3)
    let mant : Int := digitsToNat (intDigits ++ fracDigits)
    let mant := if neg then -mant else mant
    some (JsonValue.num mant (expVal - fracDigits.length), cs4)

mutual

/-- Parse one JSON value at the head of the input (leading whitespace
already skipped), returning the rest of the input. -/
def parseValue : Nat → List Char → Option (JsonValue × List Char)
  | 0, _ => none
  | fuel + 1, cs =>
      match cs with
      | [] => none
      | '\x7b' :: rest => parseObjStart fuel (skipWs rest)
      | '[' :: rest => parseArrStart fuel (skipWs rest)
      | '"' :: rest => (parseStringBody rest []).map (fun p => (JsonValue.str p.1, p.2))
      | 't' :: 'r' :: 'u' :: 'e' :: rest => some (JsonValue.bool true, rest)
      | 'f' :: 'a' :: 'l' :: 's' :: 'e' :: rest => some (JsonValue.bool false, rest)
      | 'n' :: 'u' :: 'l' :: 'l' :: rest => some (JsonValue.null, rest)
      | _ => parseNumber cs

/-- Parse an object after its opening brace and whitespace. -/
def parseObjStart : Nat → List Char → Option (JsonValue × List Char)
  | 0, _ => none
  | fuel + 1, cs =>
      match cs with
      | '\x7d' :: rest => some (JsonValue.obj [], rest)
      | _ => parseMembers fuel cs []

/-- Parse the members of a non-empty object. -/
def parseMembers : Nat → List Char → List (String × JsonValue) →
    Option (JsonValue × List Char)
  | 0, _, _ => none
  | fuel + 1, cs, acc =>
      match cs with
      | '"' :: rest =>
          match parseStringBody rest [] with
          | none => none
          | some (key, rest2) =>
              match skipWs rest2 with
              | ':' :: rest3 =>
                  match parseValue fuel (skipWs rest3) with
                  | none => none
                  | some (v, rest4) =>
                      match skipWs rest4 with
                      | ',' :: rest5 => parseMembers fuel (skipWs rest5) (acc ++ [(key, v)])
                      | '\x7d' :: rest5 => some (JsonValue.obj (acc ++ [(key, v)]), rest5)
                      | _ => none
              | _ => none
      | _ => none

/-- Parse an array after its opening bracket and whitespace. -/
def parseArrStart : Nat → List Char → Option (JsonValue × List Char)
  | 0, _ => none
  | fuel + 1, cs =>
      match cs with
      | ']' :: rest => some (JsonValue.arr [], rest)
      | _ => parseElems fuel cs []

/-- Parse the elements of a non-empty array. -/
def parseElems : Nat → List Char → List JsonValue → Option (JsonValue × List Char)
  | 0, _, _ => none
  | fuel + 1, cs, acc =>
      match parseValue fuel cs with
      | none => none
      | some (v, rest) =>
          match skipWs rest with
          | ',' :: rest2 => parseElems fuel (skipWs rest2) (acc ++ [v])
          | ']' :: rest2 => some (JsonValue.arr (acc ++ [v]), rest2)
          | _ => none

end

/-- Model of `json.loads`: parse a complete JSON document, rejecting
leftover input ("Extra data").  The fuel `4 * length + 4` dominates the
parser's recursion depth, which consumes at most three units of fuel per
input character. -/
def json_loads (s : String) : Option JsonValue :=
  let cs := skipWs s.toList
  match parseValue (4 * cs.length + 4) cs with
  | some (v, rest) => if skipWs rest = [] then some v else none
  | none => none

/-! ### Scorer (scorer.py) -/

/-- The fixed text of the evaluation prompt preceding the corpus, from the
f-string template in `LeadScorer.create_evaluation_prompt` (doubled braces
of the template are single braces here, written escaped). -/
def promptHeader : String :=
  "\n" ++
  "You are a lead scoring assistant for Whatnot jewelry sellers. Based on the scraped website content below, return a structured JSON object to help evaluate whether this site is a good fit for Whatnot.\n" ++
  "\n" ++
  "⚠️ Only use information explicitly present in the text. Do not guess or make assumptions. Use evidence from the pages.\n" ++
  "\n" ++
  "Each page is wrapped with [PAGE: URL] to help you reference where the data came from.\n" ++
  "\n---\n\n" ++
  "### Evaluate based on the following criteria (Score each 0-100):\n" ++
  "\n" ++
  "1. **Price Point (< $200)** - MOST IMPORTANT  \n" ++
  "   - Score: 0–100  \n" ++
  "   - **CRITICAL**: Items under $200 are the strongest indicator for Whatnot\n" ++
  "   - List up to 3 items < $200 with their prices (if available)\n" ++
  "   - Reference specific page URLs where prices were found\n" ++
  "   - **Scoring**: 90-100 if multiple items under $100, 70-89 if items under $200, 50-69 if items under $500\n" ++
  "\n" ++
  "2. **Multi-Channel Selling**  \n" ++
  "   - Score: 0–100  \n" ++
  "   - Channels checked: Temu, Shein, Alibaba, **Amazon**, **Etsy**, **eBay**, **Instagram**, Facebook, Poshmark, TikTok, **D2C Website**, **Shopify**  \n" ++
  "   - Higher signal for bolded channels\n" ++
  "   - Reference specific page URLs where channels were found\n" ++
  "\n" ++
  "3. **Contact Info Present**  \n" ++
  "   - Score: 0–100  \n" ++
  "   - Found: email, phone number, or social media handle  \n" ++
  "   - Bonus if linked to a decision-maker\n" ++
  "   - List the actual email and phone number found\n" ++
  "\n" ++
  "4. **Vertical Integration**  \n" ++
  "   - Score: 0–100  \n" ++
  "   - Evidence: mentions of factory, wholesaler, Faire, or Etsy Wholesale\n" ++
  "   - Reference specific page URLs where evidence was found\n" ++
  "\n" ++
  "5. **Recent Social Media Activity**  \n" ++
  "   - Score: 0–100  \n" ++
  "   - Is there any post from 2023–2025 on Instagram or Facebook?\n" ++
  "   - Reference specific page URLs where social media was found\n" ++
  "\n---\n\n" ++
  "### Scoring Guidelines:\n" ++
  "- **Price Point**: This is the MOST IMPORTANT factor. Sites with items under $200 are excellent Whatnot candidates\n" ++
  "- **Channels**: Award points for any social media presence, website, or e-commerce platform\n" ++
  "- **Contact**: Give full points for any contact information found\n" ++
  "- **Vertical Integration**: Award points for any business-related terms or wholesale mentions\n" ++
  "- **Social**: Give points for any social media presence, even if no recent posts mentioned\n" ++
  "\n" ++
  "### IMPORTANT: Do NOT automatically disqualify for:\n" ++
  "- Diamonds, engagement rings, custom, handcrafted, or handmade items\n" ++
  "- These are just indicators, not automatic disqualifiers\n" ++
  "- Focus on the price point as the primary factor\n" ++
  "\n" ++
  "### Only Disqualify If:\n" ++
  "- All items are priced over $500  \n" ++
  "- Site looks completely outdated or broken  \n" ++
  "- No contact information whatsoever  \n" ++
  "\n---\n\n" ++
  "### Total Score (0-100):\n" ++
  "The total score should be INDEPENDENT of the individual scores above. It should be your overall assessment based on:\n" ++
  "- **Price point is weighted most heavily** (40% of consideration)\n" ++
  "- Sites with items under $200 are strong Whatnot candidates\n" ++
  "- Consider the overall business model and fit for Whatnot\n" ++
  "- This is NOT a sum of the individual scores\n" ++
  "\n---\n\n" ++
  "### Return ONLY a valid JSON object with this format:\n" ++
  "\n" ++
  "```json\n" ++
  "\x7b\n" ++
  "  \"total_score\": 85,\n" ++
  "  \"disqualified\": false,\n" ++
  "  \"disqualification_reasons\": [],\n" ++
  "  \"scores\": \x7b\n" ++
  "    \"price\": \x7b\n" ++
  "      \"score\": 95,\n" ++
  "      \"examples\": [\n" ++
  "        \x7b\"item\": \"Silver heart necklace\", \"price\": \"$45\", \"page\": \"https://example.com/necklaces\"\x7d,\n" ++
  "        \x7b\"item\": \"Gold-plated studs\", \"price\": \"$35\", \"page\": \"https://example.com/earrings\"\x7d\n" ++
  "      ]\n" ++
  "    \x7d,\n" ++
  "    \"channels\": \x7b\n" ++
  "      \"score\": 80,\n" ++
  "      \"found_channels\": [\"Instagram\", \"Facebook\", \"D2C Website\"],\n" ++
  "      \"page_references\": [\"https://example.com/\", \"https://example.com/contact\"]\n" ++
  "    \x7d,\n" ++
  "    \"contact\": \x7b\n" ++
  "      \"score\": 90,\n" ++
  "      \"found\": [\"info@example.com\", \"+1 (555) 123-4567\", \"Instagram: @example\"],\n" ++
  "      \"page_references\": [\"https://example.com/contact\"]\n" ++
  "    \x7d,\n" ++
  "    \"vertical_integration\": \x7b\n" ++
  "      \"score\": 75,\n" ++
  "      \"evidence\": \"Mentions wholesale and business operations\",\n" ++
  "      \"page_references\": [\"https://example.com/about\"]\n" ++
  "    \x7d,\n" ++
  "    \"social\": \x7b\n" ++
  "      \"score\": 85,\n" ++
  "      \"evidence\": \"Active Instagram and Facebook presence found\",\n" ++
  "      \"page_references\": [\"https://example.com/\", \"https://example.com/contact\"]\n" ++
  "    \x7d\n" ++
  "  \x7d,\n" ++
  "  \"summary\": \"This site is an excellent fit for Whatnot. It sells affordable jewelry under $200 with strong social media presence, provides clear contact information, and operates as a direct-to-consumer business.\"\n" ++
  "\x7d\n" ++
  "```\n" ++
  "\n---\n\n" ++
  "### Website Content to Analyze:\n" ++
  "\n"

/-- `LeadScorer.create_evaluation_prompt`: the fixed rubric template with
the corpus text interpolated at the end (the template closes with a final
newline after the interpolation). -/
def create_evaluation_prompt (website_content : String) : String :=
  promptHeader ++ website_content ++ "\n"

/-- The distinguishable failure outcomes of `LeadScorer.evaluate_website`
(each is a distinct `return None` path with its own diagnostic message):
`noJsonFound` for the could-not-extract-JSON branch, `malformedJson` for a
`json.JSONDecodeError`, `collaboratorError` for an exception from the model
call.  There is no empty-input or schema-violation outcome in the source. -/
inductive ScorerFailure where
  | noJsonFound : ScorerFailure
  | malformedJson : ScorerFailure
  | collaboratorError : ScorerFailure
deriving Repr, DecidableEq

/-- The response-processing tail of `LeadScorer.evaluate_website`: strip
the raw response, locate the first brace and the last closing brace, slice
between them and parse with `json.loads`; the parsed value is returned
without any schema validation. -/
def parseModelResponse (raw : String) : Except ScorerFailure JsonValue :=
  let response_text := pyStrip raw
  let cs := response_text.toList
  let json_start := pyFindChar '\x7b' cs
  let json_end := pyRfindChar '\x7d' cs + 1
  if json_start ≠ -1 ∧ json_end ≠ 0 then
    match json_loads (String.mk (pySlice cs json_start json_end)) with
    | some result => Except.ok result
    | none => Except.error ScorerFailure.malformedJson
  else
    Except.error ScorerFailure.noJsonFound

/-- `LeadScorer.evaluate_website`: build the prompt from the given corpus
text, invoke the model collaborator on it (`none` modelling a raised
exception), and process the response.  The input text is not inspected
before the collaborator call. -/
def evaluate_website (generate : String → Option String)
    (website_content : String) : Except ScorerFailure JsonValue :=
  match generate (create_evaluation_prompt website_content) with
  | none => Except.error ScorerFailure.collaboratorError
  | some raw => parseModelResponse raw

/-! ### Concrete fixtures used in the theorems below -/

/-- A fake site for exercising failure handling: the seed page links to
three internal pages, every other fetch fails. -/
def fetchC3 : String → Option FetchResult := fun u =>
  if u = "https://d.example/" then some ⟨"home", ["/a", "/b", "/c"]⟩ else none

/-- A fake site whose seed page carries the same internal link twice. -/
def fetchC7 : String → Option FetchResult := fun u =>
  if u = "https://d.example/" then some ⟨"home", ["/a", "/a"]⟩ else none

/-- A three-page fake site: the root links to `/a` and `/b`; `/a` links to
an external domain and back to the root. -/
def fetchSite : String → Option FetchResult := fun u =>
  if u = "https://d.example/" then some ⟨"root", ["/a", "/b"]⟩
  else if u = "https://d.example/a" then some ⟨"page a", ["https://other.example/x", "/"]⟩
  else if u = "https://d.example/b" then some ⟨"page b", []⟩
  else none

/-- A fetch collaborator for which every request fails. -/
def fetchNone : String → Option FetchResult := fun _ => none

/-! ### Unfolding lemmas for the crawl loop -/

/-- The crawl loop on an empty frontier is finished. -/
theorem crawlEnd_nil (fetch : String → Option FetchResult) (domain : String)
    (max_pages : Nat) (s : CrawlState) (hfr : s.frontier = []) :
    crawlEnd fetch domain max_pages s = s := by
  rw [crawlEnd.eq_def]
  split
  · rfl
  · simp_all

/-- The crawl loop with an exhausted budget is finished. -/
theorem crawlEnd_stop (fetch : String → Option FetchResult) (domain : String)
    (max_pages : Nat) (s : CrawlState) (hc : ¬ s.crawled < max_pages) :
    crawlEnd fetch domain max_pages s = s := by
  rw [crawlEnd.eq_def]
  split
  · rfl
  · rw [dif_neg hc]

/-- One iteration of the crawl loop. -/
theorem crawlEnd_cons (fetch : String → Option FetchResult) (domain : String)
    (max_pages : Nat) (s : CrawlState) (current : String) (rest : List String)
    (hfr : s.frontier = current :: rest) (hc : s.crawled < max_pages) :
    crawlEnd fetch domain max_pages s =
      crawlEnd fetch domain max_pages (crawlStep fetch domain s current rest) := by
  rw [crawlEnd.eq_def]
  split
  · simp_all
  · rename_i c r h
    rw [hfr] at h
    cases h
    rw [dif_pos hc]

/-- The trace of a crawl from an empty frontier is empty. -/
theorem crawlTrace_nil (fetch : String → Option FetchResult) (domain : String)
    (max_pages : Nat) (s : CrawlState) (hfr : s.frontier = []) :
    crawlTrace fetch domain max_pages s = [] := by
  rw [crawlTrace.eq_def]
  split
  · rfl
  · simp_all

/-- The trace of a crawl with an exhausted budget is empty. -/
theorem crawlTrace_stop (fetch : String → Option FetchResult) (domain : String)
    (max_pages : Nat) (s : CrawlState) (hc : ¬ s.crawled < max_pages) :
    crawlTrace fetch domain max_pages s = [] := by
  rw [crawlTrace.eq_def]
  split
  · rfl
  · rw [dif_neg hc]

/-- One iteration of the traced crawl loop. -/
theorem crawlTrace_cons (fetch : String → Option FetchResult) (domain : String)
    (max_pages : Nat) (s : CrawlState) (current : String) (rest : List String)
    (hfr : s.frontier = current :: rest) (hc : s.crawled < max_pages) :
    crawlTrace fetch domain max_pages s =
      crawlStep fetch domain s current rest ::
        crawlTrace fetch domain max_pages (crawlStep fetch domain s current rest) := by
  rw [crawlTrace.eq_def]
  split
  · simp_all
  · rename_i c r h
    rw [hfr] at h
    cases h
    rw [dif_pos hc]

/-! ### Invariant machinery for the crawl loop -/

/-- Any property of the crawler state preserved by one loop iteration holds
for the final state of the loop. -/
theorem crawlEnd_preserve (fetch : String → Option FetchResult) (domain : String)
    (max_pages : Nat) (P : CrawlState → Prop)
    (hstep : ∀ s current rest, s.frontier = current :: rest →
        s.crawled < max_pages → P s → P (crawlStep fetch domain s current rest))
    (s : CrawlState) (hP : P s) : P (crawlEnd fetch domain max_pages s) := by
  rcases hfr : s.frontier with _ | ⟨current, rest⟩
  · rw [crawlEnd_nil fetch domain max_pages s hfr]
    exact hP
  · by_cases hc : s.crawled < max_pages
    · rw [crawlEnd_cons fetch domain max_pages s current rest hfr hc]
      exact crawlEnd_preserve fetch domain max_pages P hstep _
        (hstep s current rest hfr hc hP)
    · rw [crawlEnd_stop fetch domain max_pages s hc]
      exact hP
termination_by (max_pages - s.crawled, s.frontier.length)
decreasing_by
  rcases crawlStep_progress fetch domain s current rest with h1 | ⟨h1, h2⟩
  · exact Prod.Lex.left _ _ (by omega)
  · rw [h1, h2]
    exact Prod.Lex.right _ (by rw [hfr]; simp)

/-- Any property of the crawler state preserved by one loop iteration holds
for every state in the loop trace. -/
theorem crawlTrace_preserve (fetch : String → Option FetchResult) (domain : String)
    (max_pages : Nat) (P : CrawlState → Prop)
    (hstep : ∀ s current rest, s.frontier = current :: rest →
        s.crawled < max_pages → P s → P (crawlStep fetch domain s current rest))
    (s : CrawlState) (hP : P s) :
    ∀ t ∈ crawlTrace fetch domain max_pages s, P t := by
  intro t ht
  rcases hfr : s.frontier with _ | ⟨current, rest⟩
  · rw [crawlTrace_nil fetch domain max_pages s hfr] at ht
    simp at ht
  · by_cases hc : s.crawled < max_pages
    · rw [crawlTrace_cons fetch domain max_pages s current rest hfr hc] at ht
      rcases List.mem_cons.mp ht with h | h
      · subst h
        exact hstep s current rest hfr hc hP
      · exact crawlTrace_preserve fetch domain max_pages P hstep _
          (hstep s current rest hfr hc hP) t h
    · rw [crawlTrace_stop fetch domain max_pages s hc] at ht
      simp at ht
termination_by (max_pages - s.crawled, s.frontier.length)
decreasing_by
  rcases crawlStep_progress fetch domain s current rest with h1 | ⟨h1, h2⟩
  · exact Prod.Lex.left _ _ (by omega)
  · rw [h1, h2]
    exact Prod.Lex.right _ (by rw [hfr]; simp)

/-- On loop exit, either the frontier is exhausted or the budget is. -/
theorem crawlEnd_exit (fetch : String → Option FetchResult) (domain : String)
    (max_pages : Nat) (s : CrawlState) :
    (crawlEnd fetch domain max_pages s).frontier = [] ∨
      ¬ (crawlEnd fetch domain max_pages s).crawled < max_pages := by
  rcases hfr : s.frontier with _ | ⟨current, rest⟩
  · rw [crawlEnd_nil fetch domain max_pages s hfr]
    exact Or.inl hfr
  · by_cases hc : s.crawled < max_pages
    · rw [crawlEnd_cons fetch domain max_pages s current rest hfr hc]
      exact crawlEnd_exit fetch domain max_pages _
    · rw [crawlEnd_stop fetch domain max_pages s hc]
      exact Or.inr hc
termination_by (max_pages - s.crawled, s.frontier.length)
decreasing_by
  rcases crawlStep_progress fetch domain s current rest with h1 | ⟨h1, h2⟩
  · exact Prod.Lex.left _ _ (by omega)
  · rw [h1, h2]
    exact Prod.Lex.right _ (by rw [hfr]; simp)

/-! ### Properties of link extraction and the string primitives -/

/-- Every URL added by the link-extraction fold passed the internality and
dedup filter (generalised over the fold accumulator). -/
theorem extract_links_aux (visited frontier : List String)
    (current_url domain : String) :
    ∀ (hrefs acc : List String) (u : String),
      u ∈ hrefs.foldl
        (fun links href =>
          let full_url := urljoin current_url href
          if is_internal_link domain full_url ∧ full_url ∉ visited ∧
              full_url ∉ frontier then
            links ++ [full_url]
          else links) acc →
      u ∈ acc ∨
        (is_internal_link domain u = true ∧ u ∉ visited ∧ u ∉ frontier) := by
  intro hrefs
  induction hrefs with
  | nil =>
      intro acc u h
      exact Or.inl h
  | cons hd tl ih =>
      intro acc u h
      rw [List.foldl_cons] at h
      rcases ih _ u h with hacc | hgood
      · dsimp only at hacc
        split at hacc
        · rename_i hcond
          rcases List.mem_append.mp hacc with h1 | h2
          · exact Or.inl h1
          · rw [List.mem_singleton.mp h2]
            exact Or.inr ⟨hcond.1, hcond.2.1, hcond.2.2⟩
        · exact Or.inl hacc
      · exact Or.inr hgood

/-- Every URL returned by `extract_links` is internal to the domain and was
in neither the visited set nor the frontier. -/
theorem extract_links_mem (visited frontier hrefs : List String)
    (current_url domain : String) (u : String)
    (h : u ∈ extract_links visited frontier hrefs current_url domain) :
    is_internal_link domain u = true ∧ u ∉ visited ∧ u ∉ frontier := by
  unfold extract_links at h
  rcases extract_links_aux visited frontier current_url domain hrefs [] u h with
    h0 | hg
  · simp at h0
  · exact hg

/-- The internality test, characterised: internal means the network
location equals the domain or is absent. -/
theorem is_internal_link_iff (domain u : String) :
    is_internal_link domain u = true ↔ (netloc u = domain ∨ netloc u = "") := by
  simp [is_internal_link]

/-- `str.find` returns `-1` or an index within the string. -/
theorem pyFindChar_bounds (c : Char) (cs : List Char) :
    pyFindChar c cs = -1 ∨
      (0 ≤ pyFindChar c cs ∧ pyFindChar c cs < cs.length) := by
  induction cs with
  | nil => exact Or.inl rfl
  | cons d rest ih =>
      by_cases hd : d = c
      · right
        simp [pyFindChar, hd]
      · simp only [pyFindChar, if_neg hd]
        rcases ih with h | ⟨h1, h2⟩
        · left
          rw [h]
          rfl
        · right
          have hne : pyFindChar c rest ≠ -1 := by omega
          rw [if_neg hne]
          simp only [List.length_cons]
          omega

/-- `str.rfind` returns `-1` or an index within the string. -/
theorem pyRfindChar_bounds (c : Char) (cs : List Char) :
    pyRfindChar c cs = -1 ∨
      (0 ≤ pyRfindChar c cs ∧ pyRfindChar c cs < cs.length) := by
  unfold pyRfindChar
  rcases pyFindChar_bounds c cs.reverse with h | ⟨h1, h2⟩
  · rw [h]
    exact Or.inl rfl
  · have hne : pyFindChar c cs.reverse ≠ -1 := by omega
    rw [if_neg hne]
    rw [List.length_reverse] at h2
    right
    omega

/-- The scorer's guard `json_end != 0` holds exactly when the stripped
text contains a closing brace. -/
theorem pyRfind_add_one_ne (c : Char) (cs : List Char) :
    pyRfindChar c cs + 1 ≠ 0 ↔ pyRfindChar c cs ≠ -1 := by
  rcases pyRfindChar_bounds c cs with h | ⟨h1, h2⟩ <;> constructor <;> intro hh <;> omega

/-! ### Behaviour of the response-processing tail of the scorer -/

/-- Characterisation of `parseModelResponse`: the no-JSON failure occurs
exactly when the stripped response lacks an opening or a closing brace;
otherwise the first-brace-to-last-brace slice is parsed, a parsed value is
returned as-is, and a parse failure is the malformed-JSON outcome. -/
theorem parseModelResponse_spec (raw : String) :
    (parseModelResponse raw = Except.error ScorerFailure.noJsonFound ↔
      (pyFindChar '\x7b' (pyStrip raw).toList = -1 ∨
        pyRfindChar '\x7d' (pyStrip raw).toList = -1)) ∧
    (∀ v, json_loads (String.mk (pySlice (pyStrip raw).toList
          (pyFindChar '\x7b' (pyStrip raw).toList)
          (pyRfindChar '\x7d' (pyStrip raw).toList + 1))) = some v →
        pyFindChar '\x7b' (pyStrip raw).toList ≠ -1 →
        pyRfindChar '\x7d' (pyStrip raw).toList ≠ -1 →
        parseModelResponse raw = Except.ok v) ∧
    (json_loads (String.mk (pySlice (pyStrip raw).toList
          (pyFindChar '\x7b' (pyStrip raw).toList)
          (pyRfindChar '\x7d' (pyStrip raw).toList + 1))) = none →
        pyFindChar '\x7b' (pyStrip raw).toList ≠ -1 →
        pyRfindChar '\x7d' (pyStrip raw).toList ≠ -1 →
        parseModelResponse raw = Except.error ScorerFailure.malformedJson) := by
  simp only [parseModelResponse]
  by_cases hs : pyFindChar '\x7b' (pyStrip raw).toList ≠ -1 ∧
      pyRfindChar '\x7d' (pyStrip raw).toList + 1 ≠ 0
  · rw [if_pos hs]
    have hr : pyRfindChar '\x7d' (pyStrip raw).toList ≠ -1 :=
      (pyRfind_add_one_ne _ _).mp hs.2
    refine ⟨?_, ?_, ?_⟩
    · cases hjson : json_loads (String.mk (pySlice (pyStrip raw).toList
          (pyFindChar '\x7b' (pyStrip raw).toList)
          (pyRfindChar '\x7d' (pyStrip raw).toList + 1))) with
      | none =>
          constructor
          · intro h
            exact absurd (Except.error.inj h)
              (fun hh => ScorerFailure.noConfusion hh)
          · intro h
            rcases h with h | h
            · exact absurd h hs.1
            · exact absurd h hr
      | some v =>
          constructor
          · intro h
            exact Except.noConfusion h
          · intro h
            rcases h with h | h
            · exact absurd h hs.1
            · exact absurd h hr
    · intro v hjson _ _
      rw [hjson]
    · intro hjson _ _
      rw [hjson]
  · rw [if_neg hs]
    rw [Classical.not_and_iff_or_not_not] at hs
    have hcond : pyFindChar '\x7b' (pyStrip raw).toList = -1 ∨
        pyRfindChar '\x7d' (pyStrip raw).toList = -1 := by
      rcases hs with h | h
      · exact Or.inl (by omega)
      · exact Or.inr ((pyRfind_add_one_ne '\x7d' (pyStrip raw).toList).not_left.mp
          (fun hh => h hh))
    refine ⟨⟨fun _ => hcond, fun _ => rfl⟩, ?_, ?_⟩
    · intro v hjson hfind hrfind
      rcases hcond with h | h
      · exact absurd h hfind
      · exact absurd h hrfind
    · intro hjson hfind hrfind
      rcases hcond with h | h
      · exact absurd h hfind
      · exact absurd h hrfind

/-! ### Claims about the scorer -/

/-- C9: prompt construction is a deterministic function of the corpus
text — equal corpus texts give byte-identical prompts, and the prompt is
exactly the fixed rubric header, the corpus verbatim, and a final newline,
with no other dependence (no randomness, timestamps or ordering
nondeterminism exists in the construction). -/
theorem C9_prompt_deterministic :
    (∀ c₁ c₂ : String, c₁ = c₂ →
        create_evaluation_prompt c₁ = create_evaluation_prompt c₂) ∧
    (∀ c : String, create_evaluation_prompt c = promptHeader ++ c ++ "\n") :=
  ⟨fun c₁ c₂ h => by rw [h], fun _ => rfl⟩

/-- Witness for C9 at a concrete corpus text. -/
theorem C9_prompt_deterministic_witness :
    ("page text" = ("page text" : String)) ∧
    create_evaluation_prompt "page text" = create_evaluation_prompt "page text" :=
  ⟨rfl, C9_prompt_deterministic.1 "page text" "page text" rfl⟩

/-- C2 counterexample: on an empty corpus the scorer does not fail with an
empty-input failure; the collaborator is invoked and its answer decides the
outcome (two collaborators answering differently produce different
results, and likewise on a whitespace-only corpus). -/
theorem C2_counterexample :
    evaluate_website (fun _ => none) "" =
        Except.error ScorerFailure.collaboratorError ∧
    evaluate_website (fun _ => some "\x7b\x7d") "" =
        Except.ok (JsonValue.obj []) ∧
    evaluate_website (fun _ => none) "   " =
        Except.error ScorerFailure.collaboratorError ∧
    evaluate_website (fun _ => some "\x7b\x7d") "   " =
        Except.ok (JsonValue.obj []) :=
  ⟨rfl, rfl, rfl, rfl⟩

/-- C2 amended: `evaluate_website` performs no empty-input check; for an
empty or whitespace-only corpus it still builds the prompt, invokes the
collaborator, and returns the collaborator-determined outcome (there is no
empty-input failure kind in the scorer; the emptiness guard lives in the
callers, which exit before invoking the scorer). -/
theorem C2_empty_input_reaches_collaborator
    (generate : String → Option String) :
    (generate (create_evaluation_prompt "") = none →
        evaluate_website generate "" =
          Except.error ScorerFailure.collaboratorError) ∧
    (∀ raw, generate (create_evaluation_prompt "") = some raw →
        evaluate_website generate "" = parseModelResponse raw) ∧
    (generate (create_evaluation_prompt "   ") = none →
        evaluate_website generate "   " =
          Except.error ScorerFailure.collaboratorError) ∧
    (∀ raw, generate (create_evaluation_prompt "   ") = some raw →
        evaluate_website generate "   " = parseModelResponse raw) := by
  refine ⟨?_, ?_, ?_, ?_⟩
  · intro h
    unfold evaluate_website
    rw [h]
  · intro raw h
    unfold evaluate_website
    rw [h]
  · intro h
    unfold evaluate_website
    rw [h]
  · intro raw h
    unfold evaluate_website
    rw [h]

/-- Witness for the amended C2 at a concrete collaborator. -/
theorem C2_empty_input_reaches_collaborator_witness :
    ((fun _ : String => (some "model answer" : Option String))
        (create_evaluation_prompt "") = some "model answer") ∧
    evaluate_website (fun _ => some "model answer") "" =
      parseModelResponse "model answer" :=
  ⟨rfl, (C2_empty_input_reaches_collaborator
    (fun _ => some "model answer")).2.1 "model answer" rfl⟩

/-- C1 counterexample: a response that parses as JSON but lacks the
required `scores` and `disqualified` fields is returned as a successful
result, not rejected (there is no schema-violation outcome in the code). -/
theorem C1_counterexample :
    evaluate_website (fun _ => some "\x7b\"total_score\": 85\x7d") "site text" =
      Except.ok (JsonValue.obj [("total_score", JsonValue.num 85 0)]) := rfl

/-- C1 amended: `evaluate_website` performs no top-level schema
validation — whenever the brace-to-brace slice of the stripped response
parses as JSON, the parsed value is returned as-is, whatever fields it has
or lacks; missing fields are instead defaulted later by the display layer. -/
theorem C1_no_schema_validation (generate : String → Option String)
    (corpus raw : String) (v : JsonValue)
    (hgen : generate (create_evaluation_prompt corpus) = some raw)
    (hfind : pyFindChar '\x7b' (pyStrip raw).toList ≠ -1)
    (hrfind : pyRfindChar '\x7d' (pyStrip raw).toList ≠ -1)
    (hparse : json_loads (String.mk (pySlice (pyStrip raw).toList
        (pyFindChar '\x7b' (pyStrip raw).toList)
        (pyRfindChar '\x7d' (pyStrip raw).toList + 1))) = some v) :
    evaluate_website generate corpus = Except.ok v := by
  unfold evaluate_website
  rw [hgen]
  exact (parseModelResponse_spec raw).2.1 v hparse hfind hrfind

/-- Witness for the amended C1: the schema-violating stub of the spec is
passed through unvalidated. -/
theorem C1_no_schema_validation_witness :
    ((fun _ : String => (some "\x7b\"total_score\": 85\x7d" : Option String))
        (create_evaluation_prompt "ctx") = some "\x7b\"total_score\": 85\x7d") ∧
    evaluate_website (fun _ => some "\x7b\"total_score\": 85\x7d") "ctx" =
      Except.ok (JsonValue.obj [("total_score", JsonValue.num 85 0)]) :=
  ⟨rfl, C1_no_schema_validation (fun _ => some "\x7b\"total_score\": 85\x7d")
    "ctx" "\x7b\"total_score\": 85\x7d" (JsonValue.obj [("total_score", JsonValue.num 85 0)])
    rfl (by decide) (by decide) rfl⟩

/-- C6 counterexample: a response whose only closing brace precedes its
only opening brace has an empty extracted span, and the scorer fails with
the malformed-JSON outcome, not the no-JSON-found one the claim requires. -/
theorem C6_counterexample :
    evaluate_website (fun _ => some "\x7d a \x7b") "ctx" =
        Except.error ScorerFailure.malformedJson ∧
    (Except.error ScorerFailure.malformedJson ≠
      (Except.error ScorerFailure.noJsonFound : Except ScorerFailure JsonValue)) ∧
    pyFindChar '\x7b' (pyStrip "\x7d a \x7b").toList ≠ -1 ∧
    String.mk (pySlice (pyStrip "\x7d a \x7b").toList
      (pyFindChar '\x7b' (pyStrip "\x7d a \x7b").toList)
      (pyRfindChar '\x7d' (pyStrip "\x7d a \x7b").toList + 1)) = "" :=
  ⟨rfl, fun h => ScorerFailure.noConfusion (Except.error.inj h),
    by decide, rfl⟩

/-- C6 amended: the scorer fails with the no-JSON-found outcome exactly
when the stripped response lacks an opening or a closing brace; when both
exist, the slice from the first opening brace to the last closing brace is
parsed — a JSON object surrounded by prose on both sides is returned
successfully, while a parse failure (including the empty span arising when
the last closing brace precedes the first opening brace) is the
malformed-JSON outcome. -/
theorem C6_span_extraction (generate : String → Option String)
    (corpus raw : String)
    (hgen : generate (create_evaluation_prompt corpus) = some raw) :
    (evaluate_website generate corpus = Except.error ScorerFailure.noJsonFound ↔
      (pyFindChar '\x7b' (pyStrip raw).toList = -1 ∨
        pyRfindChar '\x7d' (pyStrip raw).toList = -1)) ∧
    (∀ v, json_loads (String.mk (pySlice (pyStrip raw).toList
          (pyFindChar '\x7b' (pyStrip raw).toList)
          (pyRfindChar '\x7d' (pyStrip raw).toList + 1))) = some v →
        pyFindChar '\x7b' (pyStrip raw).toList ≠ -1 →
        pyRfindChar '\x7d' (pyStrip raw).toList ≠ -1 →
        evaluate_website generate corpus = Except.ok v) ∧
    (json_loads (String.mk (pySlice (pyStrip raw).toList
          (pyFindChar '\x7b' (pyStrip raw).toList)
          (pyRfindChar '\x7d' (pyStrip raw).toList + 1))) = none →
        pyFindChar '\x7b' (pyStrip raw).toList ≠ -1 →
        pyRfindChar '\x7d' (pyStrip raw).toList ≠ -1 →
        evaluate_website generate corpus =
          Except.error ScorerFailure.malformedJson) := by
  unfold evaluate_website
  rw [hgen]
  exact parseModelResponse_spec raw

/-- Witness for the amended C6: prose on both sides of a JSON object is
tolerated and the embedded object is returned. -/
theorem C6_span_extraction_witness :
    ((fun _ : String => (some "Sure: \x7b\"a\": 1\x7d Thanks!" : Option String))
        (create_evaluation_prompt "ctx") = some "Sure: \x7b\"a\": 1\x7d Thanks!") ∧
    evaluate_website (fun _ => some "Sure: \x7b\"a\": 1\x7d Thanks!") "ctx" =
      Except.ok (JsonValue.obj [("a", JsonValue.num 1 0)]) :=
  ⟨rfl, (C6_span_extraction (fun _ => some "Sure: \x7b\"a\": 1\x7d Thanks!")
    "ctx" "Sure: \x7b\"a\": 1\x7d Thanks!" rfl).2.1
    (JsonValue.obj [("a", JsonValue.num 1 0)]) rfl (by decide) (by decide)⟩

/-! ### Concrete crawl runs -/

/-- One evaluated loop iteration: convenience wrapper for computing
concrete runs. -/
theorem crawlEnd_cons_eval (fetch : String → Option FetchResult) (domain : String)
    (max_pages : Nat) (s : CrawlState) (current : String) (rest : List String)
    (s' : CrawlState)
    (hfr : s.frontier = current :: rest) (hc : s.crawled < max_pages)
    (hstep : crawlStep fetch domain s current rest = s') :
    crawlEnd fetch domain max_pages s = crawlEnd fetch domain max_pages s' := by
  rw [crawlEnd_cons fetch domain max_pages s current rest hfr hc, hstep]

/-- The run of `fetchC3` with budget 2, evaluated: the seed succeeds, its
three links all fail, and every failure still lands in the visited set. -/
theorem runC3 : crawl fetchC3 "https://d.example/" 2 =
    ⟨["https://d.example/", "https://d.example/a", "https://d.example/b",
       "https://d.example/c"], [], 1, 3,
     [⟨"https://d.example/", "home"⟩],
     "[PAGE: https://d.example/]\nhome\n\n"⟩ := by
  calc crawl fetchC3 "https://d.example/" 2
      = crawlEnd fetchC3 "d.example" 2 (initState "https://d.example/") := rfl
    _ = crawlEnd fetchC3 "d.example" 2
          ⟨["https://d.example/"],
           ["https://d.example/a", "https://d.example/b", "https://d.example/c"],
           1, 0, [⟨"https://d.example/", "home"⟩],
           "[PAGE: https://d.example/]\nhome\n\n"⟩ :=
        crawlEnd_cons_eval _ _ _ _ _ _ _ rfl (by decide) (by decide)
    _ = crawlEnd fetchC3 "d.example" 2
          ⟨["https://d.example/", "https://d.example/a"],
           ["https://d.example/b", "https://d.example/c"],
           1, 1, [⟨"https://d.example/", "home"⟩],
           "[PAGE: https://d.example/]\nhome\n\n"⟩ :=
        crawlEnd_cons_eval _ _ _ _ _ _ _ rfl (by decide) (by decide)
    _ = crawlEnd fetchC3 "d.example" 2
          ⟨["https://d.example/", "https://d.example/a", "https://d.example/b"],
           ["https://d.example/c"],
           1, 2, [⟨"https://d.example/", "home"⟩],
           "[PAGE: https://d.example/]\nhome\n\n"⟩ :=
        crawlEnd_cons_eval _ _ _ _ _ _ _ rfl (by decide) (by decide)
    _ = crawlEnd fetchC3 "d.example" 2
          ⟨["https://d.example/", "https://d.example/a", "https://d.example/b",
             "https://d.example/c"], [], 1, 3,
           [⟨"https://d.example/", "home"⟩],
           "[PAGE: https://d.example/]\nhome\n\n"⟩ :=
        crawlEnd_cons_eval _ _ _ _ _ _ _ rfl (by decide) (by decide)
    _ = _ := crawlEnd_nil _ _ _ _ rfl

/-- The run of `fetchC7` with budget 1, evaluated: the seed page's repeated
link is enqueued twice. -/
theorem runC7 : crawl fetchC7 "https://d.example/" 1 =
    ⟨["https://d.example/"],
     ["https://d.example/a", "https://d.example/a"], 1, 0,
     [⟨"https://d.example/", "home"⟩],
     "[PAGE: https://d.example/]\nhome\n\n"⟩ := by
  calc crawl fetchC7 "https://d.example/" 1
      = crawlEnd fetchC7 "d.example" 1 (initState "https://d.example/") := rfl
    _ = crawlEnd fetchC7 "d.example" 1
          ⟨["https://d.example/"],
           ["https://d.example/a", "https://d.example/a"], 1, 0,
           [⟨"https://d.example/", "home"⟩],
           "[PAGE: https://d.example/]\nhome\n\n"⟩ :=
        crawlEnd_cons_eval _ _ _ _ _ _ _ rfl (by decide) (by decide)
    _ = _ := crawlEnd_stop _ _ _ _ (by decide)

/-! ### Claims about the crawler -/

/-- C8: for every seed URL, budget, and fetch-collaborator behaviour the
crawl loop terminates (the loop is a total function of its inputs, proved
by the lexicographic measure of remaining budget and frontier length); at
most the budget's worth of successful page visits are performed, and the
loop stops only with an exhausted frontier or a reached budget. -/
theorem C8_crawl_terminates_within_budget (fetch : String → Option FetchResult)
    (base_url : String) (max_pages : Nat) :
    (crawl fetch base_url max_pages).crawled ≤ max_pages ∧
    ((crawl fetch base_url max_pages).frontier = [] ∨
      (crawl fetch base_url max_pages).crawled = max_pages) := by
  unfold crawl
  have hle : (crawlEnd fetch (netloc base_url) max_pages
      (initState base_url)).crawled ≤ max_pages :=
    crawlEnd_preserve fetch (netloc base_url) max_pages
      (fun s => s.crawled ≤ max_pages)
      (fun s c rest hfr hc hP => by
        rcases crawlStep_progress fetch (netloc base_url) s c rest with
          h1 | ⟨h1, _⟩ <;> omega)
      (initState base_url) (Nat.zero_le _)
  refine ⟨hle, ?_⟩
  rcases crawlEnd_exit fetch (netloc base_url) max_pages (initState base_url) with
    h | h
  · exact Or.inl h
  · exact Or.inr (by omega)

/-- C3 counterexample: with budget 2, a run in which the seed succeeds and
its three discovered links all fail ends with four URLs in the visited
set — the visited set exceeds the max-page budget. -/
theorem C3_counterexample :
    2 < (crawl fetchC3 "https://d.example/" 2).visited.length ∧
    (crawl fetchC3 "https://d.example/" 2).visited.Nodup := by
  rw [runC3]
  exact ⟨by decide, by decide⟩

/-- C3 amended (claim C3): at every point during and after a crawl run the
number of successfully crawled pages never exceeds the budget, and the
visited set counts exactly the successful visits plus the absorbed fetch
failures — so its size exceeds the budget precisely by the number of
failed fetches, and is bounded by the budget only when no fetch fails. -/
theorem C3_visited_is_crawled_plus_failed (fetch : String → Option FetchResult)
    (base_url : String) (max_pages : Nat) :
    ((crawl fetch base_url max_pages).crawled ≤ max_pages ∧
      (crawl fetch base_url max_pages).visited.length =
        (crawl fetch base_url max_pages).crawled +
          (crawl fetch base_url max_pages).failed) ∧
    (∀ t ∈ crawlTrace fetch (netloc base_url) max_pages (initState base_url),
        t.crawled ≤ max_pages ∧
          t.visited.length = t.crawled + t.failed) := by
  have hstep : ∀ s current rest, s.frontier = current :: rest →
      s.crawled < max_pages →
      (s.crawled ≤ max_pages ∧ s.visited.length = s.crawled + s.failed) →
      ((crawlStep fetch (netloc base_url) s current rest).crawled ≤ max_pages ∧
        (crawlStep fetch (netloc base_url) s current rest).visited.length =
          (crawlStep fetch (netloc base_url) s current rest).crawled +
            (crawlStep fetch (netloc base_url) s current rest).failed) := by
    intro s current rest hfr hc hP
    unfold crawlStep
    split
    · exact ⟨hP.1, hP.2⟩
    · cases hfc : fetch current with
      | some page =>
          dsimp only
          refine ⟨by omega, ?_⟩
          simp only [List.length_append, List.length_cons, List.length_nil]
          omega
      | none =>
          dsimp only
          refine ⟨hP.1, ?_⟩
          simp only [List.length_append, List.length_cons, List.length_nil]
          omega
  constructor
  · exact crawlEnd_preserve fetch (netloc base_url) max_pages _ hstep
      (initState base_url) ⟨Nat.zero_le _, rfl⟩
  · exact crawlTrace_preserve fetch (netloc base_url) max_pages _ hstep
      (initState base_url) ⟨Nat.zero_le _, rfl⟩

/-- Witness for the amended C3 at a concrete run. -/
theorem C3_visited_is_crawled_plus_failed_witness :
    (crawl fetchC3 "https://d.example/" 2).crawled ≤ 2 ∧
    (crawl fetchC3 "https://d.example/" 2).visited.length =
      (crawl fetchC3 "https://d.example/" 2).crawled +
        (crawl fetchC3 "https://d.example/" 2).failed :=
  (C3_visited_is_crawled_plus_failed fetchC3 "https://d.example/" 2).1

/-- C4: in every crawl run, no URL appears in two distinct page blocks of
the corpus — the written block URLs are pairwise distinct, at every point
of the run and at its end. -/
theorem C4_corpus_urls_written_once (fetch : String → Option FetchResult)
    (base_url : String) (max_pages : Nat) :
    ((crawl fetch base_url max_pages).blocks.map Block.url).Nodup ∧
    (∀ t ∈ crawlTrace fetch (netloc base_url) max_pages (initState base_url),
        (t.blocks.map Block.url).Nodup) := by
  have hstep : ∀ s current rest, s.frontier = current :: rest →
      s.crawled < max_pages →
      ((s.blocks.map Block.url).Nodup ∧
        ∀ u ∈ s.blocks.map Block.url, u ∈ s.visited) →
      (((crawlStep fetch (netloc base_url) s current rest).blocks.map
          Block.url).Nodup ∧
        ∀ u ∈ (crawlStep fetch (netloc base_url) s current rest).blocks.map
          Block.url,
          u ∈ (crawlStep fetch (netloc base_url) s current rest).visited) := by
    intro s current rest hfr hc hP
    unfold crawlStep
    split
    · exact hP
    · rename_i hvis
      cases hfc : fetch current with
      | some page =>
          dsimp only
          constructor
          · simp only [List.map_append, List.map_cons, List.map_nil]
            rw [List.nodup_append]
            refine ⟨hP.1, List.nodup_singleton _, ?_⟩
            intro u hu hu1
            rw [List.mem_singleton.mp hu1] at hu
            exact hvis (hP.2 current hu)
          · intro u hu
            simp only [List.map_append, List.map_cons, List.map_nil,
              List.mem_append, List.mem_singleton] at hu
            rcases hu with hu | hu
            · exact List.mem_append_left _ (hP.2 u hu)
            · subst hu
              exact List.mem_append_right _ (List.mem_singleton_self _)
      | none =>
          dsimp only
          exact ⟨hP.1, fun u hu => List.mem_append_left _ (hP.2 u hu)⟩
  constructor
  · exact (crawlEnd_preserve fetch (netloc base_url) max_pages _ hstep
      (initState base_url) ⟨List.nodup_nil, by simp [initState]⟩).1
  · intro t ht
    exact (crawlTrace_preserve fetch (netloc base_url) max_pages _ hstep
      (initState base_url) ⟨List.nodup_nil, by simp [initState]⟩ t ht).1

/-- Witness for C4 at a concrete three-page run. -/
theorem C4_corpus_urls_written_once_witness :
    ((crawl fetchSite "https://d.example/" 10).blocks.map Block.url).Nodup :=
  (C4_corpus_urls_written_once fetchSite "https://d.example/" 10).1

/-- C5: when the fetch collaborator can only succeed on URLs that carry a
host (as `requests.get` does — URLs without a network location raise), a
crawl seeded on network location `D` writes only pages whose URL has
network location `D`; at every point of the run every frontier URL has
network location `D` or none (so a link whose resolved network location
differs from `D` is never enqueued), and a URL without a network location
counts as internal. -/
theorem C5_domain_confinement (fetch : String → Option FetchResult)
    (base_url : String) (max_pages : Nat)
    (hfetch : ∀ u r, fetch u = some r → netloc u ≠ "") :
    (∀ b ∈ (crawl fetch base_url max_pages).blocks,
        netloc b.url = netloc base_url) ∧
    (∀ t ∈ crawlTrace fetch (netloc base_url) max_pages (initState base_url),
        ∀ u ∈ t.frontier,
          netloc u = netloc base_url ∨ netloc u = "") ∧
    (∀ u : String, netloc u = "" →
        is_internal_link (netloc base_url) u = true) := by
  have hstep : ∀ s current rest, s.frontier = current :: rest →
      s.crawled < max_pages →
      ((∀ u ∈ s.frontier, netloc u = netloc base_url ∨ netloc u = "") ∧
        ∀ b ∈ s.blocks, netloc b.url = netloc base_url) →
      ((∀ u ∈ (crawlStep fetch (netloc base_url) s current rest).frontier,
          netloc u = netloc base_url ∨ netloc u = "") ∧
        ∀ b ∈ (crawlStep fetch (netloc base_url) s current rest).blocks,
          netloc b.url = netloc base_url) := by
    intro s current rest hfr hc hP
    have hcur : netloc current = netloc base_url ∨ netloc current = "" :=
      hP.1 current (by rw [hfr]; exact List.mem_cons_self _ _)
    have hrest : ∀ u ∈ rest, netloc u = netloc base_url ∨ netloc u = "" :=
      fun u hu => hP.1 u (by rw [hfr]; exact List.mem_cons_of_mem _ hu)
    unfold crawlStep
    split
    · exact ⟨hrest, hP.2⟩
    · cases hfc : fetch current with
      | some page =>
          dsimp only
          have hcD : netloc current = netloc base_url := by
            rcases hcur with h | h
            · exact h
            · exact absurd h (hfetch current page hfc)
          constructor
          · intro u hu
            rcases List.mem_append.mp hu with h | h
            · exact hrest u h
            · exact (is_internal_link_iff (netloc base_url) u).mp
                (extract_links_mem s.visited rest page.hrefs current
                  (netloc base_url) u h).1
          · intro b hb
            rcases List.mem_append.mp hb with h | h
            · exact hP.2 b h
            · rw [List.mem_singleton.mp h]
              exact hcD
      | none =>
          dsimp only
          exact ⟨hrest, hP.2⟩
  have hinit : (∀ u ∈ (initState base_url).frontier,
      netloc u = netloc base_url ∨ netloc u = "") ∧
      ∀ b ∈ (initState base_url).blocks, netloc b.url = netloc base_url := by
    constructor
    · intro u hu
      rw [List.mem_singleton.mp hu]
      exact Or.inl rfl
    · intro b hb
      exact absurd hb (List.not_mem_nil b)
  refine ⟨?_, ?_, ?_⟩
  · exact (crawlEnd_preserve fetch (netloc base_url) max_pages _ hstep
      (initState base_url) hinit).2
  · intro t ht
    exact (crawlTrace_preserve fetch (netloc base_url) max_pages _ hstep
      (initState base_url) hinit t ht).1
  · intro u h
    simp [is_internal_link, h]

/-- Witness for C5 at the concrete three-page site. -/
theorem C5_domain_confinement_witness :
    (∀ u r, fetchSite u = some r → netloc u ≠ "") ∧
    (∀ b ∈ (crawl fetchSite "https://d.example/" 10).blocks,
        netloc b.url = netloc "https://d.example/") := by
  have hf : ∀ u r, fetchSite u = some r → netloc u ≠ "" := by
    intro u r h
    unfold fetchSite at h
    split_ifs at h with h1 h2 h3
    · subst h1; decide
    · subst h2; decide
    · subst h3; decide
  exact ⟨hf, (C5_domain_confinement fetchSite "https://d.example/" 10 hf).1⟩

/-- C7 counterexample: a page carrying the same internal link twice gets
that link enqueued twice — after the seed visit of `fetchC7` the frontier
holds the resolved URL twice, so a URL can be enqueued more than once. -/
theorem C7_counterexample :
    (crawl fetchC7 "https://d.example/" 1).frontier =
      ["https://d.example/a", "https://d.example/a"] ∧
    ¬ (crawl fetchC7 "https://d.example/" 1).frontier.Nodup := by
  rw [runC7]
  exact ⟨rfl, by decide⟩

/-- C7 amended (claim C7): the enqueue filter consults the visited set and
the frontier — every link returned by `extract_links` is internal and was
in neither — but it does not consult the links already collected from the
current page, so the same URL discovered twice on one page is enqueued
twice; only the pop-time visited check prevents a second visit. -/
theorem C7_enqueue_filter (visited frontier hrefs : List String)
    (current_url domain u : String)
    (h : u ∈ extract_links visited frontier hrefs current_url domain) :
    is_internal_link domain u = true ∧ u ∉ visited ∧ u ∉ frontier :=
  extract_links_mem visited frontier hrefs current_url domain u h

/-- Witness for the amended C7: the duplicated link of `fetchC7`'s seed
page passes the filter (it is internal and new). -/
theorem C7_enqueue_filter_witness :
    ("https://d.example/a" ∈
        extract_links [] [] ["/a", "/a"] "https://d.example/" "d.example") ∧
    (is_internal_link "d.example" "https://d.example/a" = true ∧
      "https://d.example/a" ∉ ([] : List String) ∧
      "https://d.example/a" ∉ ([] : List String)) :=
  ⟨by decide, C7_enqueue_filter [] [] ["/a", "/a"] "https://d.example/"
    "d.example" "https://d.example/a" (by decide)⟩

/-- C10: every run starts with the corpus file truncated by the write-mode
open; the corpus after a run is exactly the rendering of the blocks
written in visit order, each block coming from a successful fetch of its
URL with the fetched page text; in particular a run in which every fetch
fails leaves the corpus empty. -/
theorem C10_corpus_is_successful_blocks (fetch : String → Option FetchResult)
    (base_url : String) (max_pages : Nat) :
    (initState base_url).corpus = "" ∧
    (crawl fetch base_url max_pages).corpus =
      renderCorpus (crawl fetch base_url max_pages).blocks ∧
    (∀ b ∈ (crawl fetch base_url max_pages).blocks,
        ∃ r, fetch b.url = some r ∧ b.text = r.text) ∧
    ((∀ u, fetch u = none) →
        (crawl fetch base_url max_pages).corpus = "") := by
  have hstep : ∀ s current rest, s.frontier = current :: rest →
      s.crawled < max_pages →
      (s.corpus = renderCorpus s.blocks ∧
        ∀ b ∈ s.blocks, ∃ r, fetch b.url = some r ∧ b.text = r.text) →
      ((crawlStep fetch (netloc base_url) s current rest).corpus =
          renderCorpus (crawlStep fetch (netloc base_url) s current rest).blocks ∧
        ∀ b ∈ (crawlStep fetch (netloc base_url) s current rest).blocks,
          ∃ r, fetch b.url = some r ∧ b.text = r.text) := by
    intro s current rest hfr hc hP
    unfold crawlStep
    split
    · exact hP
    · cases hfc : fetch current with
      | some page =>
          dsimp only
          constructor
          · rw [hP.1]
            unfold renderCorpus
            rw [List.foldl_append]
            rfl
          · intro b hb
            rcases List.mem_append.mp hb with h | h
            · exact hP.2 b h
            · rw [List.mem_singleton.mp h]
              exact ⟨page, hfc, rfl⟩
      | none =>
          dsimp only
          exact hP
  have hmain := crawlEnd_preserve fetch (netloc base_url) max_pages _ hstep
    (initState base_url) ⟨rfl, fun b hb => absurd hb (List.not_mem_nil b)⟩
  have hfailstep : ∀ s current rest, s.frontier = current :: rest →
      s.crawled < max_pages →
      ((∀ u, fetch u = none) → s.blocks = []) →
      ((∀ u, fetch u = none) →
        (crawlStep fetch (netloc base_url) s current rest).blocks = []) := by
    intro s current rest hfr hc hP hall
    unfold crawlStep
    split
    · exact hP hall
    · cases hfc : fetch current with
      | some page => exact absurd hfc (by rw [hall current]; exact Option.noConfusion)
      | none =>
          dsimp only
          exact hP hall
  have hfail := crawlEnd_preserve fetch (netloc base_url) max_pages _ hfailstep
    (initState base_url) (fun _ => rfl)
  refine ⟨rfl, hmain.1, hmain.2, ?_⟩
  intro hall
  unfold crawl
  rw [hmain.1, hfail hall]
  rfl

/-- Witness for C10: an all-failing fetch collaborator leaves the corpus
file empty. -/
theorem C10_corpus_is_successful_blocks_witness :
    (∀ u, fetchNone u = none) ∧
    (crawl fetchNone "https://seed.example/" 5).corpus = "" :=
  ⟨fun _ => rfl,
    (C10_corpus_is_successful_blocks fetchNone "https://seed.example/" 5).2.2.2
      (fun _ => rfl)⟩
